import Mathlib

/-!
Verification development for the UnitSpark repository.

The repository ships a WorkOS integration guide whose TypeScript code
defines a webhook controller, an auth controller, a session middleware and
a Prisma schema (models User, Organization, OrganizationMembership with
unique columns workosId, email, workosOrgId, slug and the composite pair
userId/organizationId).  This file gives a shallow embedding of that code:

* database rows become structures, the database becomes lists of rows;
* Prisma calls become total functions returning `Except DbErr DB`, where
  `DbErr.recordNotFound` models the P2025 error thrown by update/delete on
  a missing row and `DbErr.uniqueViolation` models the P2002 error thrown
  when an insert or update collides with a unique column;
* uuid generation is modelled by a counter `nextId` carried in the state;
* `new Date()` timestamps are modelled by an explicit `now : Nat` argument;
* the outcome of the WorkOS SDK calls (signature check of a webhook,
  session verification) is passed in as an `Except` value, since those
  calls talk to an external service;
* JavaScript `toLowerCase` (Unicode Default Case Conversion) is modelled
  per code point: exact on the ASCII range and on the two code points
  whose lowercase mapping introduces ASCII characters, U+212A (Kelvin
  sign, lowercased to k) and U+0130 (capital I with dot above, lowercased
  to i followed by U+0307); the remaining mappings send non-ASCII code
  points to non-ASCII code points and are modelled as the identity, which
  both uses in the code cannot distinguish (the slug regex collapses
  every code point outside [a-z0-9] alike, and the role comparison tests
  equality with the ASCII literals owner, admin and viewer).
-/

/-! ## generateSlug (AuthController.generateSlug and WebhookController.generateSlug,
the two method bodies are textually identical) -/

/-- Lowercase mapping of one code point under the JavaScript
`toLowerCase` used by the controllers: A-Z shift into a-z, the Kelvin
sign U+212A becomes the ASCII letter k, U+0130 becomes the two code
points i and U+0307; every other code point is kept, since its Unicode
lowercase stays outside ASCII and neither the slug regex nor the role
comparisons can tell it from the original. -/
def jsLowerChar (c : Char) : List Char :=
  if ('A' ≤ c) && (c ≤ 'Z') then [Char.ofNat (c.toNat + 32)]
  else if c = '\u212A' then ['k']
  else if c = '\u0130' then ['i', '\u0307']
  else [c]

/-- JavaScript `toLowerCase` on a list of code points. -/
def jsToLower (l : List Char) : List Char :=
  l.flatMap jsLowerChar

/-- Characters kept by the regex class `[a-z0-9]` of `generateSlug`. -/
def isSlugKeep (c : Char) : Bool :=
  (('a' ≤ c) && (c ≤ 'z')) || (('0' ≤ c) && (c ≤ '9'))

/-- ASCII letters and digits, the character class the slug regex keeps
before lowercasing is taken into account. -/
def isAsciiAlnum (c : Char) : Bool :=
  isSlugKeep c || (('A' ≤ c) && (c ≤ 'Z'))

/-- Model of `replace(/[^a-z0-9]+/g, "-")`: every maximal run of
characters outside `[a-z0-9]` becomes a single dash.  The flag records
whether the previous character was inside such a run. -/
def collapseRuns : Bool → List Char → List Char
  | _, [] => []
  | inRun, c :: cs =>
    if isSlugKeep c then c :: collapseRuns false cs
    else if inRun then collapseRuns true cs
    else '-' :: collapseRuns true cs

/-- Model of the `^-` alternative of `replace(/^-|-$/g, "")`: at most one
leading dash is removed. -/
def stripLead (l : List Char) : List Char :=
  if l.head? = some '-' then l.tail else l

/-- Model of the `-$` alternative of `replace(/^-|-$/g, "")`: at most one
trailing dash is removed. -/
def stripTrail : List Char → List Char
  | [] => []
  | [c] => if c = '-' then [] else [c]
  | c :: c2 :: cs => c :: stripTrail (c2 :: cs)

/-- List-level body of `generateSlug`. -/
def generateSlugL (name : List Char) : List Char :=
  stripTrail (stripLead (collapseRuns false (jsToLower name)))

/-- `generateSlug` from AuthController and WebhookController:
lowercase, collapse non-alphanumeric runs to dashes, trim edge dashes. -/
def generateSlug (name : String) : String :=
  ⟨generateSlugL name.data⟩

/-- No two adjacent dashes occur in the list. -/
def noDD : List Char → Bool
  | [] => true
  | [_] => true
  | a :: b :: cs => !(a == '-' && b == '-') && noDD (b :: cs)

/-- Last element of a character list, if any. -/
def lastChar : List Char → Option Char
  | [] => none
  | [c] => some c
  | _ :: c2 :: cs => lastChar (c2 :: cs)

/-! ## Data model (prisma/schema.prisma) -/

/-- enum OrganizationRole of the Prisma schema. -/
inductive OrganizationRole
  | OWNER
  | ADMIN
  | MEMBER
  | VIEWER
deriving DecidableEq

/-- model User.  `id` stands for the generated uuid, `preferences` for the
opaque Json column, timestamps are natural numbers.  The prisma-managed
`updatedAt` column is not part of the model; none of the handlers touches
it explicitly. -/
structure UserRow where
  id : Nat
  workosId : String
  email : String
  firstName : String
  lastName : String
  avatarUrl : Option String := none
  bio : Option String := none
  timezone : String := "UTC"
  preferences : Option String := none
  lastLoginAt : Option Nat := none
  isActive : Bool := true
  createdAt : Nat
deriving DecidableEq

/-- model Organization. -/
structure OrgRow where
  id : Nat
  workosOrgId : String
  name : String
  slug : String
  domain : Option String := none
  logoUrl : Option String := none
  settings : Option String := none
  isActive : Bool := true
  createdAt : Nat
deriving DecidableEq

/-- model OrganizationMembership. -/
structure MembershipRow where
  id : Nat
  userId : Nat
  organizationId : Nat
  role : OrganizationRole
  createdAt : Nat
deriving DecidableEq

/-- The mirror tables plus the uuid counter. -/
structure DB where
  users : List UserRow
  organizations : List OrgRow
  memberships : List MembershipRow
  nextId : Nat
deriving DecidableEq

/-- Errors thrown by the modelled Prisma calls. -/
inductive DbErr
  | recordNotFound
  | uniqueViolation
deriving DecidableEq

deriving instance DecidableEq for Except

/-- The empty database. -/
def emptyDB : DB := { users := [], organizations := [], memberships := [], nextId := 0 }

/-- True when a modelled database call returned without throwing. -/
def exceptOk {ε α : Type} : Except ε α → Bool
  | .ok _ => true
  | .error _ => false

/-! ## Modelled Prisma operations -/

/-- `prisma.user.findUnique({ where: { workosId } })`. -/
def findUserByWorkosId (db : DB) (ws : String) : Option UserRow :=
  db.users.find? (fun u => u.workosId == ws)

/-- `prisma.organization.findUnique({ where: { workosOrgId } })`. -/
def findOrgByWorkosOrgId (db : DB) (ws : String) : Option OrgRow :=
  db.organizations.find? (fun o => o.workosOrgId == ws)

/-- Lookup on the composite unique pair userId/organizationId. -/
def findMembership (db : DB) (uid oid : Nat) : Option MembershipRow :=
  db.memberships.find? (fun m => m.userId == uid && m.organizationId == oid)

/-- `prisma.user.create`: fails with P2002 when the unique columns
workosId or email collide with an existing row. -/
def insertUser (db : DB) (u : UserRow) : Except DbErr DB :=
  if db.users.any (fun v => v.workosId == u.workosId || v.email == u.email) then
    .error .uniqueViolation
  else
    .ok { db with users := db.users ++ [u], nextId := db.nextId + 1 }

/-- `prisma.organization.create`: fails with P2002 when workosOrgId or
slug collide with an existing row. -/
def insertOrg (db : DB) (o : OrgRow) : Except DbErr DB :=
  if db.organizations.any (fun v => v.workosOrgId == o.workosOrgId || v.slug == o.slug) then
    .error .uniqueViolation
  else
    .ok { db with organizations := db.organizations ++ [o], nextId := db.nextId + 1 }

/-- `prisma.organizationMembership.create`: fails with P2002 when the
composite unique pair collides with an existing row. -/
def insertMembership (db : DB) (m : MembershipRow) : Except DbErr DB :=
  if db.memberships.any (fun v => v.userId == m.userId && v.organizationId == m.organizationId) then
    .error .uniqueViolation
  else
    .ok { db with memberships := db.memberships ++ [m], nextId := db.nextId + 1 }

/-! ## WebhookController (src/controllers/webhook.controller.ts) -/

/-- Payload of the user.* events, with the optional WorkOS name fields. -/
structure UserEventData where
  id : String
  email : String
  first_name : Option String
  last_name : Option String
deriving DecidableEq

/-- Payload of the organization.* events. -/
structure OrgEventData where
  id : String
  name : String
deriving DecidableEq

/-- Payload of the organization_membership.* events. -/
structure MembershipEventData where
  user_id : String
  organization_id : String
  role : Option String
deriving DecidableEq

/-- The events dispatched by the switch in handleWorkOS; `other` covers
the default branch, which only logs. -/
inductive WebhookEvent
  | userCreated (d : UserEventData)
  | userUpdated (d : UserEventData)
  | userDeleted (d : UserEventData)
  | orgCreated (d : OrgEventData)
  | orgUpdated (d : OrgEventData)
  | orgDeleted (d : OrgEventData)
  | membershipCreated (d : MembershipEventData)
  | membershipDeleted (d : MembershipEventData)
  | other (name : String)
deriving DecidableEq

/-- Character-wise lowercasing of a string (JavaScript `toLowerCase`
restricted to ASCII). -/
def toLowerStr (s : String) : String :=
  ⟨jsToLower s.data⟩

/-- `mapWorkOSRole`: lowercases the provider role and maps it onto the
local enum; optional chaining makes a missing role fall to the default
branch. -/
def mapWorkOSRole (workosRole : Option String) : OrganizationRole :=
  match workosRole with
  | none => .MEMBER
  | some s =>
    let l := toLowerStr s
    if l = "owner" then .OWNER
    else if l = "admin" then .ADMIN
    else if l = "viewer" then .VIEWER
    else .MEMBER

/-- `handleUserCreated`: upsert on workosId, with an empty update branch. -/
def handleUserCreated (now : Nat) (d : UserEventData) (db : DB) : Except DbErr DB :=
  match findUserByWorkosId db d.id with
  | some _ => .ok db
  | none => insertUser db
      { id := db.nextId, workosId := d.id, email := d.email,
        firstName := d.first_name.getD (""), lastName := d.last_name.getD (""),
        createdAt := now }

/-- `handleUserUpdated`: plain update on workosId; fails with P2025 when
the row is missing and with P2002 when the new email belongs to another
row. -/
def handleUserUpdated (d : UserEventData) (db : DB) : Except DbErr DB :=
  match findUserByWorkosId db d.id with
  | none => .error .recordNotFound
  | some _ =>
    if db.users.any (fun v => v.workosId != d.id && v.email == d.email) then
      .error .uniqueViolation
    else
      .ok { db with users := db.users.map (fun v =>
        if v.workosId == d.id then
          { v with email := d.email,
                   firstName := d.first_name.getD (""),
                   lastName := d.last_name.getD ("") }
        else v) }

/-- `handleUserDeleted`: soft delete, flips isActive on the matched row. -/
def handleUserDeleted (d : UserEventData) (db : DB) : Except DbErr DB :=
  match findUserByWorkosId db d.id with
  | none => .error .recordNotFound
  | some _ =>
    .ok { db with users := db.users.map (fun v =>
      if v.workosId == d.id then { v with isActive := false } else v) }

/-- `handleOrganizationCreated`: plain create with a generated slug. -/
def handleOrganizationCreated (now : Nat) (d : OrgEventData) (db : DB) : Except DbErr DB :=
  insertOrg db
    { id := db.nextId, workosOrgId := d.id, name := d.name,
      slug := generateSlug d.name, createdAt := now }

/-- `handleOrganizationUpdated`: plain update of the name on workosOrgId. -/
def handleOrganizationUpdated (d : OrgEventData) (db : DB) : Except DbErr DB :=
  match findOrgByWorkosOrgId db d.id with
  | none => .error .recordNotFound
  | some _ =>
    .ok { db with organizations := db.organizations.map (fun o =>
      if o.workosOrgId == d.id then { o with name := d.name } else o) }

/-- `handleOrganizationDeleted`: soft delete, flips isActive. -/
def handleOrganizationDeleted (d : OrgEventData) (db : DB) : Except DbErr DB :=
  match findOrgByWorkosOrgId db d.id with
  | none => .error .recordNotFound
  | some _ =>
    .ok { db with organizations := db.organizations.map (fun o =>
      if o.workosOrgId == d.id then { o with isActive := false } else o) }

/-- `handleMembershipCreated`: looks up user and organization and, when
both exist, creates the membership; otherwise it does nothing. -/
def handleMembershipCreated (now : Nat) (d : MembershipEventData) (db : DB) : Except DbErr DB :=
  match findUserByWorkosId db d.user_id, findOrgByWorkosOrgId db d.organization_id with
  | some u, some o =>
    insertMembership db
      { id := db.nextId, userId := u.id, organizationId := o.id,
        role := mapWorkOSRole d.role, createdAt := now }
  | _, _ => .ok db

/-- `handleMembershipDeleted`: when user and organization exist, deletes
the membership row; the prisma delete throws P2025 when it is missing. -/
def handleMembershipDeleted (d : MembershipEventData) (db : DB) : Except DbErr DB :=
  match findUserByWorkosId db d.user_id, findOrgByWorkosOrgId db d.organization_id with
  | some u, some o =>
    if (findMembership db u.id o.id).isSome then
      .ok { db with memberships := db.memberships.filter (fun m =>
        !(m.userId == u.id && m.organizationId == o.id)) }
    else .error .recordNotFound
  | _, _ => .ok db

/-- The switch of `handleWorkOS` over the event name. -/
def processEvent (now : Nat) (e : WebhookEvent) (db : DB) : Except DbErr DB :=
  match e with
  | .userCreated d => handleUserCreated now d db
  | .userUpdated d => handleUserUpdated d db
  | .userDeleted d => handleUserDeleted d db
  | .orgCreated d => handleOrganizationCreated now d db
  | .orgUpdated d => handleOrganizationUpdated d db
  | .orgDeleted d => handleOrganizationDeleted d db
  | .membershipCreated d => handleMembershipCreated now d db
  | .membershipDeleted d => handleMembershipDeleted d db
  | .other _ => .ok db

/-- Response of the webhook endpoint: HTTP status plus the database left
behind. -/
structure WebhookResult where
  status : Nat
  db : DB
deriving DecidableEq

/-- `handleWorkOS`: `constructed` is the outcome of
`workos.webhooks.constructEvent` (signature verification plus parsing,
performed before any database access); an exception anywhere inside the
try block answers 400, success answers the json acknowledgement. -/
def handleWorkOS (constructed : Except Unit WebhookEvent) (now : Nat) (db : DB) : WebhookResult :=
  match constructed with
  | .error _ => { status := 400, db := db }
  | .ok e =>
    match processEvent now e db with
    | .ok db2 => { status := 200, db := db2 }
    | .error _ => { status := 400, db := db }

/-! ## workosAuthMiddleware (src/middleware/workos-auth.middleware.ts) -/

/-- The WorkOS user object inside a verified session. -/
structure WorkosUser where
  id : String
  email : String
  firstName : Option String
  lastName : Option String
deriving DecidableEq

/-- Result of `authenticateWithSessionCookie`. -/
structure Session where
  user : WorkosUser
  organizationId : Option String
  role : Option String
deriving DecidableEq

/-- The object attached to `req.user`. -/
structure AuthedUser where
  id : Nat
  workosId : String
  email : String
  firstName : String
  lastName : String
  organizationId : Option String
  role : Option String
deriving DecidableEq

/-- Outcome of the middleware: either control reaches `next()` with a
user attached and a possibly updated database, or a 401 response is sent
and `next()` is never called. -/
inductive MwOutcome
  | next (u : AuthedUser) (db : DB)
  | unauthorized (db : DB)
deriving DecidableEq

/-- `prisma.user.update({ where: { id }, data: { lastLoginAt } })` for a
row that was just fetched; lastLoginAt has no unique constraint. -/
def touchLastLogin (db : DB) (uid : Nat) (now : Nat) : DB :=
  { db with users := db.users.map (fun v =>
    if v.id == uid then { v with lastLoginAt := some now } else v) }

/-- `workosAuthMiddleware`.  `cookie` is `req.cookies.workos_session`
(an empty string is falsy in JavaScript, hence rejected like a missing
cookie); `verify` is the outcome of the WorkOS session verification call.
Every thrown error is caught and answered with status 401. -/
def workosAuthMiddleware (now : Nat) (cookie : Option String)
    (verify : Except Unit Session) (db : DB) : MwOutcome :=
  match cookie with
  | none => .unauthorized db
  | some c =>
    if c = "" then .unauthorized db
    else
      match verify with
      | .error _ => .unauthorized db
      | .ok s =>
        match findUserByWorkosId db s.user.id with
        | none =>
          let newU : UserRow :=
            { id := db.nextId, workosId := s.user.id, email := s.user.email,
              firstName := s.user.firstName.getD (""), lastName := s.user.lastName.getD (""),
              lastLoginAt := some now, createdAt := now }
          match insertUser db newU with
          | .error _ => .unauthorized db
          | .ok db2 =>
            .next { id := newU.id, workosId := newU.workosId, email := newU.email,
                    firstName := newU.firstName, lastName := newU.lastName,
                    organizationId := s.organizationId, role := s.role } db2
        | some u =>
          let db2 := touchLastLogin db u.id now
          if u.isActive = false then .unauthorized db2
          else
            .next { id := u.id, workosId := u.workosId, email := u.email,
                    firstName := u.firstName, lastName := u.lastName,
                    organizationId := s.organizationId, role := s.role } db2

/-- Row created by handleUserCreated for event data d when no row with
the workosId of the event exists. -/
def createdUserRow (now : Nat) (d : UserEventData) (nid : Nat) : UserRow :=
  { id := nid, workosId := d.id, email := d.email,
    firstName := d.first_name.getD (""), lastName := d.last_name.getD (""),
    createdAt := now }

/-- Row created by the middleware on first login for a verified session. -/
def sessionUserRow (now : Nat) (s : Session) (nid : Nat) : UserRow :=
  { id := nid, workosId := s.user.id, email := s.user.email,
    firstName := s.user.firstName.getD (""), lastName := s.user.lastName.getD (""),
    lastLoginAt := some now, createdAt := now }

/-! ## Concrete fixtures used by witnesses and counterexamples -/

/-- A local user mirrored from WorkOS id w. -/
def userW : UserRow := { id := 0, workosId := "w", email := "e@x", firstName := "F", lastName := "L", createdAt := 0 }

/-- A local organization mirrored from WorkOS organization id og. -/
def orgW : OrgRow := { id := 1, workosOrgId := "og", name := "Acme", slug := "acme", createdAt := 0 }

/-- One user and one organization, no membership. -/
def dbSoft : DB := { users := [userW], organizations := [orgW], memberships := [], nextId := 2 }

/-- One user, one organization, and the membership linking them. -/
def dbMemDup : DB := { users := [userW], organizations := [orgW], memberships := [{ id := 2, userId := 0, organizationId := 1, role := .MEMBER, createdAt := 0 }], nextId := 3 }

/-- A user with email a@x under WorkOS id w1. -/
def uA : UserRow := { id := 0, workosId := "w1", email := "a@x", firstName := "F", lastName := "L", createdAt := 0 }

/-- A second user with email b@x under WorkOS id w2. -/
def uB : UserRow := { id := 1, workosId := "w2", email := "b@x", firstName := "G", lastName := "K", createdAt := 0 }

/-- Database holding only uA. -/
def dbOne : DB := { users := [uA], organizations := [], memberships := [], nextId := 1 }

/-- Database holding uA and uB. -/
def dbTwo : DB := { users := [uA, uB], organizations := [], memberships := [], nextId := 2 }

/-- A verified session for WorkOS id w2 whose email clashes with uA. -/
def sessB : Session := { user := { id := "w2", email := "a@x", firstName := some ("A"), lastName := some ("B") }, organizationId := none, role := none }

/-- A verified session for a WorkOS id unknown to the mirror. -/
def sessN : Session := { user := { id := "w9", email := "n@x", firstName := some ("N"), lastName := none }, organizationId := none, role := none }

/-- The request user the middleware attaches for sessN on first login. -/
def authedN : AuthedUser := { id := 0, workosId := "w9", email := "n@x", firstName := "N", lastName := "", organizationId := none, role := none }

/-- The database after the first login of sessN on the empty database. -/
def dbN : DB := { users := [{ id := 0, workosId := "w9", email := "n@x", firstName := "N", lastName := "", lastLoginAt := some 7, createdAt := 7 }], organizations := [], memberships := [], nextId := 1 }

/-! ## Helper lemmas -/

theorem find_append_of_none {α : Type} (p : α → Bool) (l1 l2 : List α)
    (h : l1.find? p = none) : (l1 ++ l2).find? p = l2.find? p := by
  induction l1 with
  | nil => rfl
  | cons a t ih =>
    cases hp : p a with
    | true => simp [List.find?_cons_of_pos _ hp] at h
    | false =>
      rw [List.cons_append, List.find?_cons_of_neg _ (by simp [hp])]
      rw [List.find?_cons_of_neg _ (by simp [hp])] at h
      exact ih h

/-! ## C3: a request failing signature verification answers 400 and
leaves the database untouched -/

/-- C3: when `workos.webhooks.constructEvent` rejects the signature of a
POST to /webhooks/workos, the endpoint responds 400 and no row of the
user, organization or membership tables is created, updated or deleted:
the database of the response equals the incoming database. -/
theorem handleWorkOS_bad_signature (now : Nat) (db : DB) :
    handleWorkOS (.error ()) now db = { status := 400, db := db } := rfl

/-! ## C10: mapWorkOSRole is total and defaults to MEMBER -/

/-- C10: mapWorkOSRole is a total function (so it cannot throw), its
codomain is the four-constructor role enum, a missing role (undefined or
null, modelled by `none`) maps to MEMBER, and every string that does not
case-insensitively equal owner, admin or viewer maps to MEMBER rather
than VIEWER. -/
theorem mapWorkOSRole_total (r : Option String) :
    (mapWorkOSRole r = .OWNER ∨ mapWorkOSRole r = .ADMIN ∨
     mapWorkOSRole r = .MEMBER ∨ mapWorkOSRole r = .VIEWER) ∧
    mapWorkOSRole none = .MEMBER ∧
    (∀ s : String, toLowerStr s ≠ "owner" → toLowerStr s ≠ "admin" →
      toLowerStr s ≠ "viewer" → mapWorkOSRole (some s) = .MEMBER) := by
  refine ⟨?_, rfl, ?_⟩
  · cases r with
    | none => simp [mapWorkOSRole]
    | some s =>
      simp only [mapWorkOSRole]
      split
      · exact Or.inl rfl
      · split
        · exact Or.inr (Or.inl rfl)
        · split
          · exact Or.inr (Or.inr (Or.inr rfl))
          · exact Or.inr (Or.inr (Or.inl rfl))
  · intro s h1 h2 h3
    simp [mapWorkOSRole, h1, h2, h3]

/-- Witness for C10 at the concrete unrecognized role string. -/
theorem mapWorkOSRole_total_witness :
    (mapWorkOSRole (some ("superadmin")) = .OWNER ∨ mapWorkOSRole (some ("superadmin")) = .ADMIN ∨
     mapWorkOSRole (some ("superadmin")) = .MEMBER ∨ mapWorkOSRole (some ("superadmin")) = .VIEWER) ∧
    mapWorkOSRole (some ("superadmin")) = .MEMBER :=
  ⟨(mapWorkOSRole_total (some ("superadmin"))).1,
   (mapWorkOSRole_total (some ("superadmin"))).2.2 ("superadmin")
     (by decide) (by decide) (by decide)⟩

/-! ## C1: only user.created is an idempotent upsert; organization.created
fails when the same event is processed twice -/

/-- C1 counterexample: processing the same organization.created event a
second time does not leave the tables as after one processing; the plain
prisma create throws a unique violation on workosOrgId, so the second
processing fails although the first succeeded from the empty database. -/
theorem orgCreated_replay_fails :
    exceptOk (processEvent 0 (.orgCreated ⟨"org_1", "Acme"⟩) emptyDB) = true ∧
    (processEvent 0 (.orgCreated ⟨"org_1", "Acme"⟩) emptyDB).bind
      (fun db1 => processEvent 1 (.orgCreated ⟨"org_1", "Acme"⟩) db1) =
      .error .uniqueViolation := by
  decide

/-- C1 amended: of the eight handled events only user.created is applied
as an upsert.  For every prior database state in which the email of the
event is not already taken by a row with a different workosId, processing
user.created succeeds, and processing the same event a second time
returns exactly the state produced by the first processing. -/
theorem userCreated_upsert_idempotent (n1 n2 : Nat) (d : UserEventData) (db : DB)
    (h : ∀ v ∈ db.users, v.email = d.email → v.workosId = d.id) :
    ∃ db1, processEvent n1 (.userCreated d) db = .ok db1 ∧
      processEvent n2 (.userCreated d) db1 = .ok db1 := by
  cases hf : findUserByWorkosId db d.id with
  | some u =>
    exact ⟨db, by simp [processEvent, handleUserCreated, hf],
      by simp [processEvent, handleUserCreated, hf]⟩
  | none =>
    have hf' : db.users.find? (fun u => u.workosId == d.id) = none := hf
    have hall : ∀ v ∈ db.users, (v.workosId == d.id) = false := by
      intro v hv
      have h2 : ¬ (v.workosId == d.id) = true := List.find?_eq_none.mp hf' v hv
      simp only [Bool.not_eq_true] at h2
      exact h2
    have hany : (db.users.any fun v => v.workosId == d.id || v.email == d.email) = false := by
      cases hA : db.users.any fun v => v.workosId == d.id || v.email == d.email with
      | false => rfl
      | true =>
        exfalso
        obtain ⟨v, hv, hor⟩ := List.any_eq_true.mp hA
        simp only [Bool.or_eq_true, beq_iff_eq] at hor
        have hw : v.workosId = d.id := by
          rcases hor with h1 | h2
          · exact h1
          · exact h v hv h2
        have hfalse := hall v hv
        rw [hw] at hfalse
        simp at hfalse
    refine ⟨{ db with users := db.users ++ [createdUserRow n1 d db.nextId], nextId := db.nextId + 1 }, ?_, ?_⟩
    · simp [processEvent, handleUserCreated, hf, insertUser, hany, createdUserRow]
    · have hfind2 : (db.users ++ [createdUserRow n1 d db.nextId]).find? (fun u => u.workosId == d.id) =
          some (createdUserRow n1 d db.nextId) := by
        rw [find_append_of_none _ _ _ hf']
        simp [List.find?, createdUserRow]
      simp [processEvent, handleUserCreated, findUserByWorkosId, hfind2]

/-- Witness for C1 at a concrete event on the empty database. -/
theorem userCreated_upsert_idempotent_witness :
    ∃ db1, processEvent 0 (.userCreated ⟨"u1", "a@x", some ("Ann"), none⟩) emptyDB = .ok db1 ∧
      processEvent 1 (.userCreated ⟨"u1", "a@x", some ("Ann"), none⟩) db1 = .ok db1 :=
  userCreated_upsert_idempotent 0 1 ⟨"u1", "a@x", some ("Ann"), none⟩ emptyDB (by simp [emptyDB])

/-! ## C9: deletion events are soft deletes -/

/-- C9: a user.deleted or organization.deleted event never removes the
row.  When the row exists, exactly its isActive field is set to false
(the record update `{ v with isActive := false }` keeps every other field)
and rows with a different WorkOS id are mapped to themselves, so all
previously stored profile data and all other rows survive; when no row
matches, the update throws P2025 and nothing is written. -/
theorem softDelete_keeps_rows (du : UserEventData) (dd : OrgEventData) (now : Nat) (db : DB) :
    ((findUserByWorkosId db du.id).isSome = true →
      processEvent now (.userDeleted du) db = .ok { db with users := db.users.map (fun v => if v.workosId == du.id then { v with isActive := false } else v) }) ∧
    ((findUserByWorkosId db du.id).isSome = false →
      processEvent now (.userDeleted du) db = .error .recordNotFound) ∧
    ((findOrgByWorkosOrgId db dd.id).isSome = true →
      processEvent now (.orgDeleted dd) db = .ok { db with organizations := db.organizations.map (fun o => if o.workosOrgId == dd.id then { o with isActive := false } else o) }) ∧
    ((findOrgByWorkosOrgId db dd.id).isSome = false →
      processEvent now (.orgDeleted dd) db = .error .recordNotFound) := by
  refine ⟨?_, ?_, ?_, ?_⟩ <;> intro h
  · cases hf : findUserByWorkosId db du.id with
    | some u => simp [processEvent, handleUserDeleted, hf]
    | none => rw [hf] at h; simp at h
  · cases hf : findUserByWorkosId db du.id with
    | some u => rw [hf] at h; simp at h
    | none => simp [processEvent, handleUserDeleted, hf]
  · cases hf : findOrgByWorkosOrgId db dd.id with
    | some o => simp [processEvent, handleOrganizationDeleted, hf]
    | none => rw [hf] at h; simp at h
  · cases hf : findOrgByWorkosOrgId db dd.id with
    | some o => rw [hf] at h; simp at h
    | none => simp [processEvent, handleOrganizationDeleted, hf]

/-- Witness for C9 on the database holding userW and orgW. -/
theorem softDelete_keeps_rows_witness :
    processEvent 5 (.userDeleted ⟨"w", "e@x", none, none⟩) dbSoft = .ok { dbSoft with users := dbSoft.users.map (fun v => if v.workosId == "w" then { v with isActive := false } else v) } ∧
    processEvent 5 (.orgDeleted ⟨"og", "Acme"⟩) dbSoft = .ok { dbSoft with organizations := dbSoft.organizations.map (fun o => if o.workosOrgId == "og" then { o with isActive := false } else o) } :=
  ⟨(softDelete_keeps_rows ⟨"w", "e@x", none, none⟩ ⟨"og", "Acme"⟩ 5 dbSoft).1 (by decide),
   (softDelete_keeps_rows ⟨"w", "e@x", none, none⟩ ⟨"og", "Acme"⟩ 5 dbSoft).2.2.1 (by decide)⟩

/-! ## C4: user.updated sync and frame -/

/-- C4 counterexample: with two mirrored users, a user.updated event for
w1 carrying the email of the other row makes the prisma update throw the
unique violation on the email column, so the endpoint answers 400 and the
row is not brought in sync with the event, although the workosId of the
event exists locally. -/
theorem userUpdated_email_conflict :
    processEvent 0 (.userUpdated ⟨"w1", "b@x", some ("N"), some ("M")⟩) dbTwo = .error .uniqueViolation ∧
    handleWorkOS (.ok (.userUpdated ⟨"w1", "b@x", some ("N"), some ("M")⟩)) 0 dbTwo = { status := 400, db := dbTwo } ∧
    (findUserByWorkosId dbTwo ("w1")).isSome = true := by
  decide

/-- C4 amended: when the workosId of a user.updated event exists locally
and no other row holds the email of the event, processing sets exactly
email, firstName and lastName of the matched row (missing names become
the empty string via `|| ""`); the record update keeps avatarUrl, bio,
timezone, preferences, lastLoginAt, isActive and createdAt, and rows with
a different workosId are mapped to themselves. -/
theorem userUpdated_sync_frame (now : Nat) (d : UserEventData) (db : DB)
    (hfound : (findUserByWorkosId db d.id).isSome = true)
    (hemail : ∀ v ∈ db.users, v.email = d.email → v.workosId = d.id) :
    processEvent now (.userUpdated d) db = .ok { db with users := db.users.map (fun v =>
      if v.workosId == d.id then { v with email := d.email, firstName := d.first_name.getD (""), lastName := d.last_name.getD ("") } else v) } := by
  cases hf : findUserByWorkosId db d.id with
  | none => rw [hf] at hfound; simp at hfound
  | some u =>
    have hany : (db.users.any fun v => v.workosId != d.id && v.email == d.email) = false := by
      cases hA : db.users.any fun v => v.workosId != d.id && v.email == d.email with
      | false => rfl
      | true =>
        exfalso
        obtain ⟨v, hv, hp⟩ := List.any_eq_true.mp hA
        simp only [Bool.and_eq_true, bne_iff_ne, beq_iff_eq] at hp
        exact hp.1 (hemail v hv hp.2)
    simp [processEvent, handleUserUpdated, hf, hany]

/-- Witness for C4 at a fresh email on the one-user database. -/
theorem userUpdated_sync_frame_witness :
    processEvent 3 (.userUpdated ⟨"w1", "new@x", some ("N"), none⟩) dbOne = .ok { dbOne with users := dbOne.users.map (fun v =>
      if v.workosId == "w1" then { v with email := "new@x", firstName := "N", lastName := "" } else v) } :=
  userUpdated_sync_frame 3 ⟨"w1", "new@x", some ("N"), none⟩ dbOne (by decide) (by decide)

/-! ## C5: organization_membership.created -/

/-- C5 counterexample: when user and organization both exist but already
share a membership, the plain prisma create throws on the composite
unique pair, so no membership row is created and the endpoint answers 400
instead of acknowledging, refuting the claim for this prior state. -/
theorem membershipCreated_duplicate_fails :
    (findUserByWorkosId dbMemDup ("w")).isSome = true ∧
    (findOrgByWorkosOrgId dbMemDup ("og")).isSome = true ∧
    processEvent 5 (.membershipCreated ⟨"w", "og", some ("admin")⟩) dbMemDup = .error .uniqueViolation ∧
    handleWorkOS (.ok (.membershipCreated ⟨"w", "og", some ("admin")⟩)) 5 dbMemDup = { status := 400, db := dbMemDup } := by
  decide

/-- C5 amended: when user and organization both exist and are not yet
linked, processing appends exactly one membership row carrying the mapped
role; when either is missing the database is returned unchanged with the
success acknowledgement; and the role mapping sends owner, admin and
viewer (case-insensitively) to the matching enum value and everything
else, including a missing role, to MEMBER. -/
theorem membershipCreated_links_or_acks (now : Nat) (d : MembershipEventData) (db : DB) :
    (∀ u o, findUserByWorkosId db d.user_id = some u →
      findOrgByWorkosOrgId db d.organization_id = some o →
      findMembership db u.id o.id = none →
      processEvent now (.membershipCreated d) db = .ok { db with
        memberships := db.memberships ++ [{ id := db.nextId, userId := u.id, organizationId := o.id, role := mapWorkOSRole d.role, createdAt := now }],
        nextId := db.nextId + 1 }) ∧
    ((findUserByWorkosId db d.user_id = none ∨ findOrgByWorkosOrgId db d.organization_id = none) →
      processEvent now (.membershipCreated d) db = .ok db) ∧
    mapWorkOSRole none = .MEMBER ∧
    (∀ s : String, mapWorkOSRole (some s) =
      (if toLowerStr s = "owner" then .OWNER
       else if toLowerStr s = "admin" then .ADMIN
       else if toLowerStr s = "viewer" then .VIEWER
       else .MEMBER)) := by
  refine ⟨?_, ?_, rfl, fun s => rfl⟩
  · intro u o hu ho hm
    have hall := List.find?_eq_none.mp hm
    have hany : (db.memberships.any fun v => v.userId == u.id && v.organizationId == o.id) = false := by
      cases hA : db.memberships.any fun v => v.userId == u.id && v.organizationId == o.id with
      | false => rfl
      | true =>
        obtain ⟨v, hv, hp⟩ := List.any_eq_true.mp hA
        exact absurd hp (hall v hv)
    simp [processEvent, handleMembershipCreated, hu, ho, insertMembership, hany]
  · intro h
    rcases h with hu | ho
    · simp [processEvent, handleMembershipCreated, hu]
    · cases hu : findUserByWorkosId db d.user_id with
      | none => simp [processEvent, handleMembershipCreated, hu]
      | some u => simp [processEvent, handleMembershipCreated, hu, ho]

/-- Witness for C5: a created membership with role Admin, and the
acknowledged no-op for an unknown organization. -/
theorem membershipCreated_links_or_acks_witness :
    processEvent 5 (.membershipCreated ⟨"w", "og", some ("Admin")⟩) dbSoft = .ok { dbSoft with
      memberships := dbSoft.memberships ++ [{ id := dbSoft.nextId, userId := userW.id, organizationId := orgW.id, role := mapWorkOSRole (some ("Admin")), createdAt := 5 }],
      nextId := dbSoft.nextId + 1 } ∧
    processEvent 5 (.membershipCreated ⟨"w", "zz", some ("admin")⟩) dbSoft = .ok dbSoft :=
  ⟨(membershipCreated_links_or_acks 5 ⟨"w", "og", some ("Admin")⟩ dbSoft).1 userW orgW (by decide) (by decide) (by decide),
   (membershipCreated_links_or_acks 5 ⟨"w", "zz", some ("admin")⟩ dbSoft).2.1 (Or.inr (by decide))⟩

/-! ## C8: generateSlug output shape -/


theorem isSlugKeep_beq_dash {c : Char} (h : isSlugKeep c = true) : (c == '-') = false := by
  cases hb : c == '-' with
  | false => rfl
  | true =>
    have : c = '-' := by simpa using hb
    rw [this] at h
    simp [isSlugKeep] at h

theorem collapseRuns_all (b : Bool) (l : List Char) :
    (collapseRuns b l).all (fun c => isSlugKeep c || c == '-') = true := by
  induction l generalizing b with
  | nil => rfl
  | cons c cs ih =>
    by_cases hk : isSlugKeep c
    · simp only [collapseRuns, hk, if_true, List.all_cons]
      simp [hk, ih]
    · by_cases hb : b
      · simp only [collapseRuns, hk, if_false, hb, if_true]
        simpa using ih true
      · simp only [collapseRuns, hk, if_false, hb, List.all_cons]
        simp [ih]

theorem collapseRuns_true_head (l : List Char) :
    (collapseRuns true l).head? ≠ some '-' := by
  induction l with
  | nil => simp [collapseRuns]
  | cons c cs ih =>
    by_cases hk : isSlugKeep c
    · simp only [collapseRuns, hk, if_true, List.head?_cons]
      intro hc
      have : c = '-' := by simpa using hc
      rw [this] at hk
      simp [isSlugKeep] at hk
    · simpa only [collapseRuns, hk, if_false, if_true] using ih

theorem noDD_cons (a : Char) (l : List Char) :
    noDD (a :: l) = ((match l.head? with
      | none => true
      | some b => !(a == '-' && b == '-')) && noDD l) := by
  cases l with
  | nil => simp [noDD]
  | cons b r => rfl

theorem collapseRuns_noDD (b : Bool) (l : List Char) : noDD (collapseRuns b l) = true := by
  induction l generalizing b with
  | nil => rfl
  | cons c cs ih =>
    by_cases hk : isSlugKeep c
    · simp only [collapseRuns, hk, if_true]
      rw [noDD_cons]
      cases hh : (collapseRuns false cs).head? with
      | none => simp [ih]
      | some b2 => simp [isSlugKeep_beq_dash hk, ih]
    · by_cases hb : b
      · simpa only [collapseRuns, hk, if_false, hb, if_true] using ih true
      · have hstep : collapseRuns b (c :: cs) = '-' :: collapseRuns true cs := by
          simp [collapseRuns, hk, hb]
        rw [hstep, noDD_cons]
        cases hh : (collapseRuns true cs).head? with
        | none => simp [ih]
        | some b2 =>
          have hne : b2 ≠ '-' := by
            intro he
            rw [he] at hh
            exact collapseRuns_true_head cs hh
          simp only [Bool.and_eq_true]
          constructor
          · simp [hne]
          · exact ih true

theorem noDD_tail (a : Char) (l : List Char) (h : noDD (a :: l) = true) : noDD l = true := by
  rw [noDD_cons] at h
  simp only [Bool.and_eq_true] at h
  exact h.2

theorem stripLead_all (P : Char → Bool) (l : List Char) (h : l.all P = true) :
    (stripLead l).all P = true := by
  unfold stripLead
  split
  · cases l with
    | nil => rfl
    | cons a t =>
      simp only [List.all_cons, Bool.and_eq_true] at h
      exact h.2
  · exact h

theorem stripLead_head (l : List Char) (h : noDD l = true) :
    (stripLead l).head? ≠ some '-' := by
  unfold stripLead
  cases l with
  | nil => simp
  | cons a t =>
    by_cases ha : a = '-'
    · subst ha
      simp only [List.head?_cons, if_pos rfl, List.tail_cons]
      cases t with
      | nil => simp
      | cons b r =>
        rw [noDD_cons] at h
        simp only [Bool.and_eq_true] at h
        have h1 := h.1
        simp only [List.head?_cons] at h1
        intro hc
        have hb : b = '-' := by simpa using hc
        rw [hb] at h1
        simp at h1
    · rw [if_neg (by simpa using ha)]
      simpa using ha

theorem stripLead_noDD (l : List Char) (h : noDD l = true) : noDD (stripLead l) = true := by
  unfold stripLead
  split
  · cases l with
    | nil => rfl
    | cons a t => exact noDD_tail a t h
  · exact h

theorem stripTrail_eq_nil (l : List Char) (h : stripTrail l = []) :
    l = [] ∨ l = ['-'] := by
  match l with
  | [] => exact Or.inl rfl
  | [c] =>
    by_cases hc : c = '-'
    · subst hc; exact Or.inr rfl
    · simp [stripTrail, hc] at h
  | c :: c2 :: cs => simp [stripTrail] at h

theorem stripTrail_all (P : Char → Bool) (l : List Char) (h : l.all P = true) :
    (stripTrail l).all P = true := by
  induction l with
  | nil => rfl
  | cons c cs ih =>
    cases cs with
    | nil =>
      by_cases hc : c = '-'
      · simp [stripTrail, hc]
      · simpa [stripTrail, hc] using h
    | cons c2 r =>
      simp only [List.all_cons, Bool.and_eq_true] at h
      have := ih (by simp [h.2])
      simp [stripTrail, h.1, this]

theorem stripTrail_head (l : List Char) :
    (stripTrail l).head? = none ∨ (stripTrail l).head? = l.head? := by
  match l with
  | [] => exact Or.inl rfl
  | [c] =>
    by_cases hc : c = '-'
    · simp [stripTrail, hc]
    · simp [stripTrail, hc]
  | c :: c2 :: cs => simp [stripTrail]

theorem stripTrail_noDD (l : List Char) (h : noDD l = true) :
    noDD (stripTrail l) = true := by
  induction l with
  | nil => rfl
  | cons c cs ih =>
    cases cs with
    | nil =>
      by_cases hc : c = '-'
      · simp [stripTrail, hc, noDD]
      · simp [stripTrail, hc, noDD]
    | cons c2 r =>
      have hstep : stripTrail (c :: c2 :: r) = c :: stripTrail (c2 :: r) := rfl
      rw [hstep, noDD_cons]
      have htail : noDD (c2 :: r) = true := noDD_tail c _ h
      have hres := ih htail
      simp only [Bool.and_eq_true]
      refine ⟨?_, hres⟩
      cases hh : (stripTrail (c2 :: r)).head? with
      | none => simp
      | some b2 =>
        rcases stripTrail_head (c2 :: r) with h0 | h0
        · rw [h0] at hh; exact absurd hh (by simp)
        · rw [h0] at hh
          have hb2 : b2 = c2 := by simpa using hh.symm
          subst hb2
          rw [noDD_cons] at h
          simp only [Bool.and_eq_true] at h
          have h1 := h.1
          simp only [List.head?_cons] at h1
          simpa using h1

theorem stripTrail_last (l : List Char) (h : noDD l = true) :
    lastChar (stripTrail l) ≠ some '-' := by
  induction l with
  | nil => simp [stripTrail, lastChar]
  | cons c cs ih =>
    cases cs with
    | nil =>
      by_cases hc : c = '-'
      · simp [stripTrail, hc, lastChar]
      · simp [stripTrail, hc, lastChar]
    | cons c2 r =>
      have hstep : stripTrail (c :: c2 :: r) = c :: stripTrail (c2 :: r) := rfl
      rw [hstep]
      have htail : noDD (c2 :: r) = true := noDD_tail c _ h
      cases hX : stripTrail (c2 :: r) with
      | nil =>
        rcases stripTrail_eq_nil _ hX with h0 | h0
        · exact absurd h0 (by simp)
        · have hc2 : c2 = '-' := by
            have := congrArg List.head? h0
            simpa using this
          have hr : r = [] := by
            have := congrArg List.length h0
            simpa using this
          subst hc2; subst hr
          rw [noDD_cons] at h
          simp only [Bool.and_eq_true] at h
          have h1 := h.1
          simp only [List.head?_cons] at h1
          simp [lastChar]
          intro hcc
          rw [hcc] at h1
          simp at h1
      | cons d ds =>
        have : lastChar (c :: d :: ds) = lastChar (d :: ds) := rfl
        rw [this, ← hX]
        exact ih htail

theorem jsLowerChar_ascii {c : Char} (hlt : c.toNat < 128) (h : isAsciiAlnum c = false) :
    jsLowerChar c = [c] ∧ isSlugKeep c = false := by
  simp only [isAsciiAlnum, Bool.or_eq_false_iff] at h
  refine ⟨?_, h.1⟩
  by_cases hk : c = '\u212A'
  · subst hk
    exact absurd hlt (by decide)
  · by_cases hi : c = '\u0130'
    · subst hi
      exact absurd hlt (by decide)
    · simp [jsLowerChar, h.2, hk, hi]

theorem collapseRuns_true_all_skip (l : List Char) (h : ∀ c ∈ l, isSlugKeep c = false) :
    collapseRuns true l = [] := by
  induction l with
  | nil => rfl
  | cons c cs ih =>
    have hc := h c (List.mem_cons_self c cs)
    simp only [collapseRuns, hc]
    simp only [Bool.false_eq_true, if_false, if_true]
    exact ih (fun x hx => h x (List.mem_cons_of_mem c hx))

theorem generateSlugL_empty (name : List Char) (h : ∀ c ∈ jsToLower name, isSlugKeep c = false) :
    generateSlugL name = [] := by
  unfold generateSlugL
  cases hm : jsToLower name with
  | nil => simp [collapseRuns, stripLead, stripTrail]
  | cons c cs =>
    rw [hm] at h
    have hc := h c (List.mem_cons_self c cs)
    have hcoll : collapseRuns false (c :: cs) = ['-'] := by
      simp only [collapseRuns, hc]
      simp only [Bool.false_eq_true, if_false]
      rw [collapseRuns_true_all_skip cs (fun x hx => h x (List.mem_cons_of_mem c hx))]
    rw [hcoll]
    rfl

/-- C8 counterexample: the Kelvin sign U+212A is a name with no ASCII
letter or digit, yet its JavaScript lowercase is the ASCII letter k, so
the program produces the non-empty slug k for it, refuting the claim that
every such name yields the empty string. -/
theorem generateSlug_kelvin_nonempty :
    (∀ c ∈ ("\u212A").data, isAsciiAlnum c = false) ∧
    generateSlug ("\u212A") = ("k") ∧
    generateSlug ("\u212A") ≠ ("") := by
  decide

/-- C8 amended: for every input name, generateSlug returns only lowercase
ASCII letters, digits and single dashes: every character satisfies
isSlugKeep or is a dash, there is no leading dash, no trailing dash and
no two adjacent dashes.  The result is the empty string whenever the
lowercased name contains no character of [a-z0-9]; in particular a name
of ASCII characters none of which is a letter or digit yields the empty
string, so distinct names can share a slug.  (The unrestricted clause of
the original claim fails: Unicode lowercasing can introduce ASCII
letters, see the counterexample.) -/
theorem generateSlug_clean (name : String) :
    (generateSlug name).data.all (fun c => isSlugKeep c || c == '-') = true ∧
    (generateSlug name).data.head? ≠ some '-' ∧
    lastChar (generateSlug name).data ≠ some '-' ∧
    noDD (generateSlug name).data = true ∧
    ((∀ c ∈ jsToLower name.data, isSlugKeep c = false) → generateSlug name = "") ∧
    ((∀ c ∈ name.data, c.toNat < 128) → (∀ c ∈ name.data, isAsciiAlnum c = false) →
      generateSlug name = "") := by
  have hdata : (generateSlug name).data = generateSlugL name.data := rfl
  have hall := collapseRuns_all false (jsToLower name.data)
  have hnd := collapseRuns_noDD false (jsToLower name.data)
  have hndL := stripLead_noDD _ hnd
  have hempty : (∀ c ∈ jsToLower name.data, isSlugKeep c = false) → generateSlug name = "" := by
    intro h
    have hz : generateSlugL name.data = [] := generateSlugL_empty _ h
    show (⟨generateSlugL name.data⟩ : String) = ""
    rw [hz]
  refine ⟨?_, ?_, ?_, ?_, hempty, ?_⟩
  · rw [hdata]
    exact stripTrail_all _ _ (stripLead_all _ _ hall)
  · rw [hdata]
    unfold generateSlugL
    rcases stripTrail_head (stripLead (collapseRuns false (jsToLower name.data))) with h0 | h0
    · rw [h0]; simp
    · rw [h0]
      exact stripLead_head _ hnd
  · rw [hdata]
    exact stripTrail_last _ hndL
  · rw [hdata]
    exact stripTrail_noDD _ hndL
  · intro h1 h2
    apply hempty
    intro c hc
    unfold jsToLower at hc
    obtain ⟨a, ha, hca⟩ := List.mem_flatMap.mp hc
    obtain ⟨heq, hkeep⟩ := jsLowerChar_ascii (h1 a ha) (h2 a ha)
    rw [heq] at hca
    have hcaeq : c = a := by simpa using hca
    rw [hcaeq]
    exact hkeep

/-- Witness for C8: both empty-slug clauses at concrete names of ASCII
characters without letters or digits. -/
theorem generateSlug_clean_witness :
    (generateSlug ("!!")).data.all (fun c => isSlugKeep c || c == '-') = true ∧
    (generateSlug ("!!")).data.head? ≠ some '-' ∧
    lastChar (generateSlug ("!!")).data ≠ some '-' ∧
    noDD (generateSlug ("!!")).data = true ∧
    generateSlug ("!!") = "" ∧
    generateSlug ("--") = "" := by
  have h := generateSlug_clean ("!!")
  have h2 := generateSlug_clean ("--")
  exact ⟨h.1, h.2.1, h.2.2.1, h.2.2.2.1, h.2.2.2.2.1 (by decide),
    h2.2.2.2.2.2 (by decide) (by decide)⟩

/-! ## C2: workosAuthMiddleware responses -/

/-- C2 counterexample: with a local user holding email a@x under WorkOS
id w1, a request carrying a nonempty cookie whose session verifies to the
new WorkOS id w2 with the same email is answered 401 (the profile create
throws on the unique email column), although the cookie is present, the
verification succeeded and there is no matched local user whose isActive
is false; this refutes the stated exactly-when characterization. -/
theorem auth_email_conflict_unauthorized :
    workosAuthMiddleware 0 (some ("tok")) (Except.ok sessB) dbOne = .unauthorized dbOne ∧
    (some ("tok") : Option String) ≠ none ∧ (some ("tok") : Option String) ≠ some ("") ∧
    findUserByWorkosId dbOne sessB.user.id = none := by
  decide


/-- C2 amended: the middleware either reaches next with a user attached
(whose workosId is the one of the verified session) or answers 401, and
it answers 401 exactly when the cookie is absent or empty, when session
verification fails, when the matched local user has isActive false, or
when no local user matches and creating the profile collides with the
unique email column. -/
theorem workosAuthMiddleware_responses (now : Nat) (cookie : Option String)
    (verify : Except Unit Session) (db : DB) :
    ((∃ dbA, workosAuthMiddleware now cookie verify db = .unauthorized dbA) ↔
      (cookie = none ∨ cookie = some ("") ∨
       (∃ e, verify = .error e) ∨
       (∃ s u, verify = .ok s ∧ findUserByWorkosId db s.user.id = some u ∧ u.isActive = false) ∨
       (∃ s, verify = .ok s ∧ findUserByWorkosId db s.user.id = none ∧
         ∃ v ∈ db.users, v.email = s.user.email))) ∧
    (∀ u db2, workosAuthMiddleware now cookie verify db = .next u db2 →
      ∃ s, verify = .ok s ∧ u.workosId = s.user.id) := by
  cases cookie with
  | none =>
    refine ⟨⟨fun _ => Or.inl rfl, fun _ => ⟨db, rfl⟩⟩, ?_⟩
    intro u db2 hmw
    simp [workosAuthMiddleware] at hmw
  | some c =>
    by_cases hc : c = ""
    · subst hc
      refine ⟨⟨fun _ => Or.inr (Or.inl rfl), fun _ => ⟨db, by simp [workosAuthMiddleware]⟩⟩, ?_⟩
      intro u db2 hmw
      simp [workosAuthMiddleware] at hmw
    · cases verify with
      | error e =>
        refine ⟨⟨fun _ => Or.inr (Or.inr (Or.inl ⟨e, rfl⟩)),
          fun _ => ⟨db, by simp [workosAuthMiddleware, hc]⟩⟩, ?_⟩
        intro u db2 hmw
        simp [workosAuthMiddleware, hc] at hmw
      | ok s =>
        cases hf : findUserByWorkosId db s.user.id with
        | some urow =>
          have hf' : db.users.find? (fun v => v.workosId == s.user.id) = some urow := hf
          have hwid : urow.workosId = s.user.id := by
            have h3 := List.find?_some hf'
            simpa using h3
          cases hact : urow.isActive with
          | false =>
            have hmw : workosAuthMiddleware now (some c) (.ok s) db =
                .unauthorized (touchLastLogin db urow.id now) := by
              simp [workosAuthMiddleware, hc, hf, hact]
            refine ⟨⟨fun _ => Or.inr (Or.inr (Or.inr (Or.inl ⟨s, urow, rfl, hf, hact⟩))),
              fun _ => ⟨_, hmw⟩⟩, ?_⟩
            intro u db2 h
            rw [hmw] at h
            exact absurd h (by simp)
          | true =>
            have hmw : workosAuthMiddleware now (some c) (.ok s) db =
                .next ⟨urow.id, urow.workosId, urow.email, urow.firstName, urow.lastName,
                  s.organizationId, s.role⟩ (touchLastLogin db urow.id now) := by
              simp [workosAuthMiddleware, hc, hf, hact]
            constructor
            · rw [hmw]
              constructor
              · rintro ⟨dbA, h⟩
                exact absurd h (by simp)
              · intro h
                exfalso
                rcases h with h | h | h | h | h
                · exact Option.noConfusion h
                · exact hc (by simpa using h)
                · obtain ⟨e, he⟩ := h
                  exact Except.noConfusion he
                · obtain ⟨s2, u2, hs2, hf2, hact2⟩ := h
                  injection hs2 with hs2e
                  rw [← hs2e] at hf2
                  rw [hf] at hf2
                  injection hf2 with hu2
                  rw [← hu2] at hact2
                  rw [hact] at hact2
                  exact Bool.noConfusion hact2
                · obtain ⟨s2, hs2, hfn, _⟩ := h
                  injection hs2 with hs2e
                  rw [← hs2e] at hfn
                  rw [hf] at hfn
                  exact Option.noConfusion hfn
            · intro u db2 h
              rw [hmw] at h
              injection h with h1 h2
              exact ⟨s, rfl, by rw [← h1, hwid]⟩
        | none =>
          have hf' : db.users.find? (fun v => v.workosId == s.user.id) = none := hf
          have hall : ∀ v ∈ db.users, (v.workosId == s.user.id) = false := by
            intro v hv
            have h2 : ¬ (v.workosId == s.user.id) = true := List.find?_eq_none.mp hf' v hv
            simp only [Bool.not_eq_true] at h2
            exact h2
          cases hA : db.users.any (fun v => v.workosId == s.user.id || v.email == s.user.email) with
          | true =>
            have hmw : workosAuthMiddleware now (some c) (.ok s) db = .unauthorized db := by
              simp [workosAuthMiddleware, hc, hf, insertUser, hA]
            have hv : ∃ v ∈ db.users, v.email = s.user.email := by
              obtain ⟨v, hvm, hor⟩ := List.any_eq_true.mp hA
              simp only [Bool.or_eq_true, beq_iff_eq] at hor
              rcases hor with h1 | h2
              · exfalso
                have := hall v hvm
                rw [h1] at this
                simp at this
              · exact ⟨v, hvm, h2⟩
            refine ⟨⟨fun _ => Or.inr (Or.inr (Or.inr (Or.inr ⟨s, rfl, hf, hv⟩))),
              fun _ => ⟨db, hmw⟩⟩, ?_⟩
            intro u db2 h
            rw [hmw] at h
            exact absurd h (by simp)
          | false =>
            have hmw : workosAuthMiddleware now (some c) (.ok s) db =
                .next ⟨db.nextId, s.user.id, s.user.email, s.user.firstName.getD (""),
                  s.user.lastName.getD (""), s.organizationId, s.role⟩
                  { db with users := db.users ++ [sessionUserRow now s db.nextId], nextId := db.nextId + 1 } := by
              simp [workosAuthMiddleware, hc, hf, insertUser, hA, sessionUserRow]
            constructor
            · rw [hmw]
              constructor
              · rintro ⟨dbA, h⟩
                exact absurd h (by simp)
              · intro h
                exfalso
                rcases h with h | h | h | h | h
                · exact Option.noConfusion h
                · exact hc (by simpa using h)
                · obtain ⟨e, he⟩ := h
                  exact Except.noConfusion he
                · obtain ⟨s2, u2, hs2, hf2, _⟩ := h
                  injection hs2 with hs2e
                  rw [← hs2e] at hf2
                  rw [hf] at hf2
                  exact Option.noConfusion hf2
                · obtain ⟨s2, hs2, _, v, hvm, hem⟩ := h
                  injection hs2 with hs2e
                  rw [← hs2e] at hem
                  have htrue : (db.users.any fun v => v.workosId == s.user.id || v.email == s.user.email) = true :=
                    List.any_eq_true.mpr ⟨v, hvm, by simp [hem]⟩
                  rw [hA] at htrue
                  exact Bool.noConfusion htrue
            · intro u db2 h
              rw [hmw] at h
              injection h with h1 h2
              exact ⟨s, rfl, by rw [← h1]⟩


/-- Witness for C2: a first login of sessN on the empty database reaches
next with the created user attached. -/
theorem workosAuthMiddleware_responses_witness :
    ∃ s, (Except.ok sessN : Except Unit Session) = .ok s ∧ authedN.workosId = s.user.id :=
  (workosAuthMiddleware_responses 7 (some ("tok")) (.ok sessN) emptyDB).2 authedN dbN (by decide)
